import Mathlib

/-!
Verification of the real-time transcript analysis library.

The definitions below are a shallow embedding of the TypeScript sources:
`TranscriptAnalyzer` (decision engine) and `TranscriptMonitor`
(orchestrator).  JavaScript strings are modelled through their character
lists, numbers carrying confidences as rationals, and wall-clock
timestamps in milliseconds as naturals.  External effects (the completion
provider call and its JSON parse) are passed in as explicit outcome
values.  Case folding and whitespace follow the ASCII subset, which is
what the library's fixed token sets use.
-/

/-! ## JavaScript string primitives -/

/-- Character-level model of `s.split(/\s+/)`: the string is cut at every
maximal whitespace run; an empty token is kept at the front (resp. back)
when the string starts (resp. ends) with whitespace, and splitting the
empty string yields one empty token. -/
def jsSplitAux : List Char → List Char → Bool → List (List Char)
  | [], cur, _ => [cur.reverse]
  | c :: cs, cur, prevWs =>
    if c.isWhitespace then
      if prevWs then jsSplitAux cs cur true
      else cur.reverse :: jsSplitAux cs [] true
    else jsSplitAux cs (c :: cur) false

/-- `s.split(/\s+/)` as a list of strings. -/
def jsSplitWs (s : String) : List String :=
  (jsSplitAux s.data [] false).map fun cs => String.mk cs

/-- `s.trim()`: strip whitespace from both ends. -/
def jsTrim (s : String) : String :=
  String.mk (((s.data.dropWhile Char.isWhitespace).reverse.dropWhile Char.isWhitespace).reverse)

/-- `s.toLowerCase()` (ASCII case folding). -/
def lowerStr (s : String) : String := String.mk (s.data.map Char.toLower)

/-- Substring test used for `hay.includes(sub)`. -/
def containsSub (sub : List Char) : List Char → Bool
  | [] => sub.isEmpty
  | c :: cs => sub.isPrefixOf (c :: cs) || containsSub sub cs

/-- `hay.includes(sub)`. -/
def includesStr (hay sub : String) : Bool := containsSub sub.data hay.data

/-! ## Decision engine data model -/

inductive Role where
  | user
  | assistant
deriving DecidableEq

structure Message where
  role : Role
  content : String
  timestamp : Nat
deriving DecidableEq

structure AnalysisContext where
  transcript : String
  previousTranscript : String
  silenceDuration : Nat
  conversationHistory : List Message
  name : String := ""
  role : String := ""
  contextFile : String := ""

structure AnalysisResult where
  shouldRespond : Bool
  confidence : ℚ
  reason : String
deriving DecidableEq

inductive Provider where
  | openai
  | anthropic
  | custom
deriving DecidableEq

/-- Analyzer configuration after the constructor has applied its defaults
(`provider: 'openai'`, `minWords: 5`, `maxSilenceMs: 1500`). -/
structure AnalyzerConfig where
  provider : Provider := Provider.openai
  apiKey : Option String := none
  minWords : Nat := 5
  maxSilenceMs : Nat := 1500
  customAnalyzer : Option (String → AnalysisContext → AnalysisResult) := none

/-- JavaScript truthiness of an optional string (absent and `''` are falsy). -/
def jsTruthy : Option String → Bool
  | none => false
  | some s => !s.data.isEmpty

/-- The JavaScript value produced by a successful `JSON.parse`. -/
inductive JsonValue where
  | null
  | bool (b : Bool)
  | num (q : ℚ)
  | str (s : String)
  | arr (xs : List JsonValue)
  | obj (fields : List (String × JsonValue))

/-- Property access `v.k` on a parsed JSON value: defined on objects,
`undefined` (here `none`) everywhere else. -/
def getField : JsonValue → String → Option JsonValue
  | JsonValue.obj fields, k => fields.lookup k
  | _, _ => none

namespace TranscriptAnalyzer

/-- Word count from `analyze`:
`transcript.split(/\s+/).filter(w => w.length > 0).length`. -/
def wordCountOf (t : String) : Nat :=
  ((jsSplitWs t).filter fun w => w.length > 0).length

/-- `transcript.includes('?')`. -/
def hasQuestionIn (t : String) : Bool := t.data.contains '?'

/-- `/^(hi|hello|hey)/i.test(transcript)`. -/
def hasGreetingIn (t : String) : Bool :=
  (["hi", "hello", "hey"] : List String).any fun g =>
    g.data.isPrefixOf (t.data.map Char.toLower)

/-- `/[.!?]$/.test(transcript)`. -/
def endsWithTerminal (t : String) : Bool :=
  match t.data.getLast? with
  | some c => c = '.' || c = '!' || c = '?'
  | none => false

/-- `ruleBasedAnalysis`: the deterministic fallback scoring.  The
sequential mutation of `baseConfidence` / `shouldRespond` / `reason` in
the source is threaded through `let` bindings. -/
def ruleBasedAnalysis (transcript : String) (ctx : AnalysisContext) : AnalysisResult :=
  let hasQuestion := hasQuestionIn transcript
  let hasGreeting := hasGreetingIn transcript
  let seemsComplete := endsWithTerminal transcript || (jsSplitWs transcript).length > 10
  let isDirectlyAddressed :=
    !ctx.name.data.isEmpty && !(jsTrim ctx.name).data.isEmpty &&
      includesStr (lowerStr transcript) (jsTrim (lowerStr ctx.name))
  let step1 : ℚ × Bool × String :=
    if isDirectlyAddressed then
      (0.3, true, "Directly addressed as " ++ ctx.name)
    else (0, false, "")
  let step2 : ℚ × Bool × String :=
    if hasQuestion then
      (step1.1 + 0.5, true,
        if step1.2.2.data.isEmpty then "Question detected"
        else step1.2.2 ++ ", question detected")
    else if hasGreeting then
      (step1.1 + 0.4, true,
        if step1.2.2.data.isEmpty then "Greeting detected"
        else step1.2.2 ++ ", greeting detected")
    else step1
  let conf3 : ℚ :=
    if !ctx.role.data.isEmpty && !(jsTrim ctx.role).data.isEmpty then step2.1 + 0.1
    else step2.1
  let step4 : ℚ × Bool × String :=
    if seemsComplete && decide (ctx.silenceDuration > 2000) then
      (conf3 + 0.2, true,
        if step2.2.2.data.isEmpty then "Complete statement"
        else step2.2.2 ++ ", complete statement")
    else (conf3, step2.2.1, step2.2.2)
  { shouldRespond := step4.2.1
    confidence := min 0.95 (max 0.1 step4.1)
    reason := if step4.2.2.data.isEmpty then "Incomplete or unclear" else step4.2.2 }

/-- `parseAndValidateResponse`: strict schema validation of the AI
verdict.  `parsed = none` stands for a `JSON.parse` failure; every
validation error is thrown and caught, falling back to the rule-based
analysis. -/
def parseAndValidateResponse (parsed : Option JsonValue) (transcript : String)
    (ctx : AnalysisContext) : AnalysisResult :=
  match parsed with
  | none => ruleBasedAnalysis transcript ctx
  | some v =>
    match getField v "shouldRespond" with
    | some (JsonValue.bool sr) =>
      match getField v "confidence" with
      | some (JsonValue.num c) =>
        if c < 0 ∨ 1 < c then ruleBasedAnalysis transcript ctx
        else
          match getField v "reason" with
          | some (JsonValue.str reas) =>
            if reas.data.isEmpty then ruleBasedAnalysis transcript ctx
            else
              { shouldRespond := sr
                confidence := max 0 (min 1 c)
                reason := String.mk (reas.data.take 200) }
          | _ => ruleBasedAnalysis transcript ctx
      | _ => ruleBasedAnalysis transcript ctx
    | _ => ruleBasedAnalysis transcript ctx

/-- `aiAnalysis`: the provider call outcome is passed in explicitly.
`Except.error` covers a thrown provider call, `Except.ok parsed` a
returned response string together with its parse result. -/
def aiAnalysis (transcript : String) (ctx : AnalysisContext)
    (providerResp : Except String (Option JsonValue)) : AnalysisResult :=
  match providerResp with
  | Except.error _ => ruleBasedAnalysis transcript ctx
  | Except.ok parsed => parseAndValidateResponse parsed transcript ctx

/-- `analyze`: the full decision cascade (word-count gate, immediate
triggers, silence gate, custom analyzer, AI path, rule-based fallback). -/
def analyze (cfg : AnalyzerConfig) (transcript : String) (ctx : AnalysisContext)
    (providerResp : Except String (Option JsonValue)) : AnalysisResult :=
  let wordCount := wordCountOf transcript
  if wordCount < (if cfg.minWords = 0 then 5 else cfg.minWords) then
    { shouldRespond := false, confidence := 0.2, reason := "Too few words" }
  else
    let hasQuestion := hasQuestionIn transcript
    let hasGreeting := hasGreetingIn transcript
    if hasQuestion || hasGreeting then
      { shouldRespond := true, confidence := 0.9
        reason := if hasQuestion then "Question detected" else "Greeting detected" }
    else if ctx.silenceDuration < (if cfg.maxSilenceMs = 0 then 1500 else cfg.maxSilenceMs) then
      { shouldRespond := false, confidence := 0.5, reason := "User may still be speaking" }
    else
      match cfg.customAnalyzer with
      | some f => f transcript ctx
      | none =>
        if cfg.provider ≠ Provider.custom ∧ jsTruthy cfg.apiKey = true then
          aiAnalysis transcript ctx providerResp
        else
          ruleBasedAnalysis transcript ctx

/-- Claim-side characterization of a well-formed AI verdict: valid JSON,
boolean `shouldRespond`, numeric `confidence` within `[0, 1]`, and a
non-empty string `reason`. -/
def aiOutputValid : Option JsonValue → Bool
  | none => false
  | some v =>
    (match getField v "shouldRespond" with
      | some (JsonValue.bool _) => true
      | _ => false) &&
    (match getField v "confidence" with
      | some (JsonValue.num c) => decide (0 ≤ c) && decide (c ≤ 1)
      | _ => false) &&
    (match getField v "reason" with
      | some (JsonValue.str reas) => !reas.data.isEmpty
      | _ => false)

end TranscriptAnalyzer

/-! ## Monitor / orchestrator model -/

/-- Lifecycle events emitted by the monitor. -/
inductive MonEvent where
  | transcriptChanged (t : String)
  | analysisComplete (r : AnalysisResult)
  | responseGenerated (s : String)
  | errorEvent (e : String)
deriving DecidableEq

/-- The identity triple the monitor was constructed with
(`name` / `role` / `contextFile`, each defaulting to `''`). -/
structure MonIdentity where
  name : String := ""
  role : String := ""
  contextFile : String := ""

/-- Mutable state of a `TranscriptMonitor` instance.  `store` is the
key/value transcript storage, `pending` the debounced call waiting to
fire (its arguments: transcript and the silence value passed at
scheduling time). -/
structure MonState where
  store : String → String
  lastTranscript : String
  lastChangeTime : Nat
  conversationHistory : List Message
  isProcessing : Bool
  pending : Option (String × Nat)

/-- Monitor state right after construction at time `t0`. -/
def initMonState (t0 : Nat) : MonState :=
  { store := fun _ => ""
    lastTranscript := ""
    lastChangeTime := t0
    conversationHistory := []
    isProcessing := false
    pending := none }

/-- `array.slice(-n)`: the last `n` elements. -/
def sliceLast (n : Nat) (l : List α) : List α := l.drop (l.length - n)

namespace TranscriptMonitor

/-- The analysis context `_processTranscript` assembles at the moment the
debounced cycle executes (`now`): the silence duration is recomputed as
`Date.now() - this.lastChangeTime`. -/
def buildContext (idCfg : MonIdentity) (st : MonState) (transcript : String)
    (now : Nat) : AnalysisContext :=
  { transcript := transcript
    previousTranscript := st.lastTranscript
    silenceDuration := now - st.lastChangeTime
    conversationHistory := st.conversationHistory
    name := idCfg.name
    role := idCfg.role
    contextFile := idCfg.contextFile }

/-- `_processTranscript`: one debounced processing cycle.  `analyzeFn` and
`genFn` stand for the retried analyzer and generator calls, each
resolving to a value or to the last thrown error; the function returns
the successor state and the events emitted during the cycle.  The
`silenceDurationArg` scheduled with the call is ignored by the source,
which recomputes the silence at execution time. -/
def processCycle (analyzeFn : String → AnalysisContext → Except String AnalysisResult)
    (genFn : String → List Message → Except String String)
    (idCfg : MonIdentity) (st : MonState) (transcript : String)
    (_silenceDurationArg : Nat) (now : Nat) : MonState × List MonEvent :=
  if (jsTrim transcript).data.isEmpty then (st, [])
  else if st.isProcessing then (st, [])
  else
    let st1 := { st with isProcessing := true }
    let context := buildContext idCfg st1 transcript now
    match analyzeFn transcript context with
    | Except.error e => ({ st1 with isProcessing := false }, [MonEvent.errorEvent e])
    | Except.ok analysis =>
      if analysis.shouldRespond then
        match genFn transcript st1.conversationHistory with
        | Except.error e =>
          ({ st1 with isProcessing := false },
            [MonEvent.analysisComplete analysis, MonEvent.errorEvent e])
        | Except.ok response =>
          let h0 := st1.conversationHistory ++
            [ { role := Role.user, content := transcript, timestamp := now },
              { role := Role.assistant, content := response, timestamp := now } ]
          let h1 := if h0.length > 20 then sliceLast 20 h0 else h0
          ({ st1 with conversationHistory := h1, isProcessing := false },
            [MonEvent.analysisComplete analysis, MonEvent.responseGenerated response])
      else ({ st1 with isProcessing := false }, [MonEvent.analysisComplete analysis])

/-- `handleTranscriptChange`: synchronously records the change time and
the last-seen transcript, emits `transcriptChanged`, and (re)schedules the
debounced cycle with the new transcript and a silence argument of `0`. -/
def handleTranscriptChange (st : MonState) (transcript : String) (now : Nat) :
    MonState × List MonEvent :=
  ({ st with lastChangeTime := now
             lastTranscript := transcript
             pending := some (transcript, 0) },
    [MonEvent.transcriptChanged transcript])

/-- `updateTranscript`: writes the text under the fixed storage key
`'transcript'` and runs the change handler. -/
def updateTranscript (st : MonState) (transcript : String) (now : Nat) :
    MonState × List MonEvent :=
  let st1 := { st with store := fun k => if k = "transcript" then transcript else st.store k }
  handleTranscriptChange st1 transcript now

/-- The cooperatively-scheduled operations on one monitor instance:
an observed storage change, a manual `updateTranscript`, the debounce
timer firing, and `clearHistory`. -/
inductive MonOp where
  | observeChange (t : String) (now : Nat)
  | update (t : String) (now : Nat)
  | fireDebounce (now : Nat)
  | clearHist

/-- One step of the monitor's event loop. -/
def monStep (analyzeFn : String → AnalysisContext → Except String AnalysisResult)
    (genFn : String → List Message → Except String String)
    (idCfg : MonIdentity) (st : MonState) : MonOp → MonState × List MonEvent
  | MonOp.observeChange t now => handleTranscriptChange st t now
  | MonOp.update t now => updateTranscript st t now
  | MonOp.fireDebounce now =>
    match st.pending with
    | none => (st, [])
    | some (t, sArg) =>
      processCycle analyzeFn genFn idCfg { st with pending := none } t sArg now
  | MonOp.clearHist => ({ st with conversationHistory := [] }, [])

/-- Run a sequence of operations, keeping the final state. -/
def monRun (analyzeFn : String → AnalysisContext → Except String AnalysisResult)
    (genFn : String → List Message → Except String String)
    (idCfg : MonIdentity) (st : MonState) (ops : List MonOp) : MonState :=
  ops.foldl (fun s op => (monStep analyzeFn genFn idCfg s op).1) st

/-- Iterated successful cycles: each input is a transcript together with
the wall-clock time at which its cycle fires. -/
def runCycles (analyzeFn : String → AnalysisContext → Except String AnalysisResult)
    (genFn : String → List Message → Except String String)
    (idCfg : MonIdentity) (st : MonState) (inputs : List (String × Nat)) : MonState :=
  inputs.foldl (fun s p => (processCycle analyzeFn genFn idCfg s p.1 0 p.2).1) st

/-- The user/assistant message pairs a run of successful cycles appends,
in order, before any truncation. -/
def pairMessages (respFn : String → String) (inputs : List (String × Nat)) : List Message :=
  (inputs.map fun p =>
    [ { role := Role.user, content := p.1, timestamp := p.2 },
      { role := Role.assistant, content := respFn p.1, timestamp := p.2 } ]).flatten

end TranscriptMonitor

/-! ## Claims about the decision engine -/

/-- C1: for every transcript whose whitespace-split word count (empty
tokens discarded) is below the configured minimum, `analyze` returns
`shouldRespond = false` with confidence `0.2` and reason `'Too few
words'`, regardless of question marks, greetings, silence duration, or
the provider outcome: the gate fires before any other signal. -/
theorem word_gate_fires_first (cfg : AnalyzerConfig) (t : String) (ctx : AnalysisContext)
    (pr : Except String (Option JsonValue))
    (h : TranscriptAnalyzer.wordCountOf t < cfg.minWords) :
    TranscriptAnalyzer.analyze cfg t ctx pr
      = { shouldRespond := false, confidence := 0.2, reason := "Too few words" } := by
  have heff : TranscriptAnalyzer.wordCountOf t < (if cfg.minWords = 0 then 5 else cfg.minWords) := by
    split <;> omega
  unfold TranscriptAnalyzer.analyze
  rw [if_pos heff]

/-- Witness for C1: the two-word question `"Hi?"` is rejected by the
word-count gate under the default configuration even with a long
silence. -/
theorem word_gate_fires_first_witness :
    TranscriptAnalyzer.wordCountOf "Hi?" < AnalyzerConfig.minWords {} ∧
      TranscriptAnalyzer.analyze {} "Hi?" ⟨"Hi?", "", 99999, [], "", "", ""⟩ (Except.error "x")
        = { shouldRespond := false, confidence := 0.2, reason := "Too few words" } :=
  ⟨by decide, word_gate_fires_first {} "Hi?" ⟨"Hi?", "", 99999, [], "", "", ""⟩
    (Except.error "x") (by decide)⟩

/-- C2: an AI-assisted decision response that is not valid JSON, or whose
`shouldRespond` is not a boolean, or whose `confidence` is not a number
in `[0, 1]`, or whose `reason` is missing or empty, is discarded, and the
analysis returns exactly what the rule-based fallback alone produces for
that transcript and context. -/
theorem ai_malformed_falls_back (t : String) (ctx : AnalysisContext)
    (parsed : Option JsonValue)
    (h : TranscriptAnalyzer.aiOutputValid parsed = false) :
    TranscriptAnalyzer.aiAnalysis t ctx (Except.ok parsed)
      = TranscriptAnalyzer.ruleBasedAnalysis t ctx := by
  cases parsed with
  | none => rfl
  | some v =>
    unfold TranscriptAnalyzer.aiOutputValid at h
    unfold TranscriptAnalyzer.aiAnalysis TranscriptAnalyzer.parseAndValidateResponse
    repeat' split
    all_goals try rfl
    all_goals simp_all

/-- Witness for C2: a response that parses to a JSON string (not an
object) is rejected and the rule-based result is returned verbatim. -/
theorem ai_malformed_falls_back_witness :
    TranscriptAnalyzer.aiOutputValid (some (JsonValue.str "yes")) = false ∧
      TranscriptAnalyzer.aiAnalysis "some words here now yes" ⟨"", "", 2500, [], "", "", ""⟩
          (Except.ok (some (JsonValue.str "yes")))
        = TranscriptAnalyzer.ruleBasedAnalysis "some words here now yes" ⟨"", "", 2500, [], "", "", ""⟩ :=
  ⟨by decide, ai_malformed_falls_back "some words here now yes" ⟨"", "", 2500, [], "", "", ""⟩
    (some (JsonValue.str "yes")) (by decide)⟩

/-- C3 counterexample: with a configured minimum of `0`, the two-word
question `"is it?"` has word count `2 ≥ 0` and contains a question mark,
yet `analyze` rejects it with `'Too few words'`: the source reads the
minimum as `this.config.minWords || 5`, so a configured `0` silently
becomes `5`. -/
theorem question_trigger_counterexample :
    AnalyzerConfig.minWords { minWords := 0 } ≤ TranscriptAnalyzer.wordCountOf "is it?" ∧
      TranscriptAnalyzer.hasQuestionIn "is it?" = true ∧
      TranscriptAnalyzer.analyze { minWords := 0 } "is it?" ⟨"is it?", "", 0, [], "", "", ""⟩
          (Except.error "x")
        = { shouldRespond := false, confidence := 0.2, reason := "Too few words" } :=
  ⟨by decide, by decide, rfl⟩

/-- C3 (amended): for every transcript containing a question mark whose
word count is at least the configured minimum, provided that minimum is
positive (a configured `0` falls back to the default `5`), `analyze`
returns `shouldRespond = true` with confidence `0.9` and reason
`'Question detected'`, even when the silence duration is `0` ms: the
question trigger is evaluated before the silence gate. -/
theorem question_trigger_amended (cfg : AnalyzerConfig) (t : String) (ctx : AnalysisContext)
    (pr : Except String (Option JsonValue))
    (hpos : 0 < cfg.minWords)
    (hwc : cfg.minWords ≤ TranscriptAnalyzer.wordCountOf t)
    (hq : TranscriptAnalyzer.hasQuestionIn t = true) :
    TranscriptAnalyzer.analyze cfg t ctx pr
      = { shouldRespond := true, confidence := 0.9, reason := "Question detected" } := by
  have heff : ¬ (TranscriptAnalyzer.wordCountOf t < (if cfg.minWords = 0 then 5 else cfg.minWords)) := by
    split <;> omega
  unfold TranscriptAnalyzer.analyze
  rw [if_neg heff, hq]
  simp

/-- Witness for C3 (amended): a five-word question with zero silence is
answered immediately under the default configuration. -/
theorem question_trigger_amended_witness :
    0 < AnalyzerConfig.minWords {} ∧
      AnalyzerConfig.minWords {} ≤ TranscriptAnalyzer.wordCountOf "What is your name sir?" ∧
      TranscriptAnalyzer.analyze {} "What is your name sir?" ⟨"What is your name sir?", "", 0, [], "", "", ""⟩
          (Except.error "x")
        = { shouldRespond := true, confidence := 0.9, reason := "Question detected" } :=
  ⟨by decide, by decide,
    question_trigger_amended {} "What is your name sir?"
      ⟨"What is your name sir?", "", 0, [], "", "", ""⟩ (Except.error "x")
      (by decide) (by decide) (by decide)⟩

/-- Boolean list-level prefix test agrees with taking the matching
number of characters. -/
theorem isPrefixOf_eq_take (p : List Char) :
    ∀ l : List Char, p.isPrefixOf l = true ↔ l.take p.length = p := by
  induction p with
  | nil => intro l; simp [List.isPrefixOf]
  | cons a as ih =>
    intro l
    cases l with
    | nil => simp [List.isPrefixOf]
    | cons b bs =>
      simp only [List.isPrefixOf, Bool.and_eq_true, beq_iff_eq, ih,
        List.length_cons, List.take_succ_cons, List.cons.injEq]
      constructor
      · rintro ⟨h1, h2⟩; exact ⟨h1.symm, h2⟩
      · rintro ⟨h1, h2⟩; exact ⟨h1.symm, h2⟩

/-- The greeting regex fires exactly when the lowercased transcript
starts with one of the tokens `hi`, `hello`, `hey`. -/
theorem hasGreetingIn_iff (t : String) :
    TranscriptAnalyzer.hasGreetingIn t = true ↔
      ∃ g ∈ (["hi", "hello", "hey"] : List String),
        (t.data.map Char.toLower).take g.data.length = g.data := by
  unfold TranscriptAnalyzer.hasGreetingIn
  rw [List.any_eq_true]
  constructor
  · rintro ⟨g, hg, hp⟩
    exact ⟨g, hg, (isPrefixOf_eq_take g.data (t.data.map Char.toLower)).mp hp⟩
  · rintro ⟨g, hg, hp⟩
    exact ⟨g, hg, (isPrefixOf_eq_take g.data (t.data.map Char.toLower)).mpr hp⟩

/-- Strings of different lengths differ. -/
theorem ne_of_length_ne {a b : String} (h : a.length ≠ b.length) : a ≠ b :=
  fun he => h (he ▸ rfl)

/-- Without a question mark and without a greeting start, the rule-based
fallback never reports the greeting reason. -/
theorem ruleBased_reason_no_greeting (t : String) (ctx : AnalysisContext)
    (hq : TranscriptAnalyzer.hasQuestionIn t = false)
    (hg : TranscriptAnalyzer.hasGreetingIn t = false) :
    (TranscriptAnalyzer.ruleBasedAnalysis t ctx).reason ≠ "Greeting detected" := by
  have h22 : ("Directly addressed as " : String).length = 22 := by decide
  have h17 : ("Greeting detected" : String).length = 17 := by decide
  have h19 : (", complete statement" : String).length = 20 := by decide
  unfold TranscriptAnalyzer.ruleBasedAnalysis
  rw [hq, hg]
  simp only [Bool.false_eq_true, if_false]
  repeat' split
  all_goals simp_all
  all_goals apply ne_of_length_ne
  all_goals simp only [String.length_append, h22, h17, h19]
  all_goals omega

/-- C4 counterexample: with a configured minimum of `0`, the two-word
greeting `"hi there"` starts with the token `hi` and has word count
`2 ≥ 0`, yet `analyze` rejects it with `'Too few words'` because the
source reads the minimum as `this.config.minWords || 5`. -/
theorem greeting_trigger_counterexample :
    AnalyzerConfig.minWords { minWords := 0 } ≤ TranscriptAnalyzer.wordCountOf "hi there" ∧
      TranscriptAnalyzer.hasQuestionIn "hi there" = false ∧
      TranscriptAnalyzer.hasGreetingIn "hi there" = true ∧
      TranscriptAnalyzer.analyze { minWords := 0 } "hi there" ⟨"hi there", "", 0, [], "", "", ""⟩
          (Except.error "x")
        = { shouldRespond := false, confidence := 0.2, reason := "Too few words" } :=
  ⟨by decide, by decide, by decide, rfl⟩

/-- C4 (amended): for a transcript with word count at least the
configured minimum (provided that minimum is positive; a configured `0`
falls back to the default `5`), with no question mark, and with the
engine in its deterministic mode (no custom analyzer, no API key), the
immediate greeting verdict `⟨true, 0.9, 'Greeting detected'⟩` is returned
exactly when the transcript begins, case-insensitively, with one of the
fixed tokens `hi`, `hello`, `hey`. -/
theorem greeting_trigger_amended (cfg : AnalyzerConfig) (t : String) (ctx : AnalysisContext)
    (pr : Except String (Option JsonValue))
    (hpos : 0 < cfg.minWords)
    (hwc : cfg.minWords ≤ TranscriptAnalyzer.wordCountOf t)
    (hq : TranscriptAnalyzer.hasQuestionIn t = false)
    (hcust : cfg.customAnalyzer = none)
    (hkey : cfg.apiKey = none) :
    TranscriptAnalyzer.analyze cfg t ctx pr
        = { shouldRespond := true, confidence := 0.9, reason := "Greeting detected" }
      ↔ ∃ g ∈ (["hi", "hello", "hey"] : List String),
          (t.data.map Char.toLower).take g.data.length = g.data := by
  rw [← hasGreetingIn_iff]
  have heff : ¬ (TranscriptAnalyzer.wordCountOf t
      < (if cfg.minWords = 0 then 5 else cfg.minWords)) := by
    split <;> omega
  constructor
  · intro heq
    by_contra hng
    have hg : TranscriptAnalyzer.hasGreetingIn t = false := by
      simpa using hng
    unfold TranscriptAnalyzer.analyze at heq
    rw [if_neg heff, hq, hg, hcust, hkey] at heq
    simp only [Bool.or_self, Bool.false_eq_true, if_false, jsTruthy,
      Bool.false_and, and_false] at heq
    split at heq <;> split at heq <;>
      first
        | simp at heq
        | exact ruleBased_reason_no_greeting t ctx hq hg
            (congrArg AnalysisResult.reason heq)
  · intro hg
    unfold TranscriptAnalyzer.analyze
    rw [if_neg heff, hq, hg]
    simp

/-- Witness for C4 (amended), applied in both directions: the transcript
`"Hello there how are you doing"` gets the greeting verdict under the
default configuration. -/
theorem greeting_trigger_amended_witness :
    TranscriptAnalyzer.analyze {} "Hello there how are you doing"
        ⟨"Hello there how are you doing", "", 0, [], "", "", ""⟩ (Except.error "x")
      = { shouldRespond := true, confidence := 0.9, reason := "Greeting detected" } :=
  (greeting_trigger_amended {} "Hello there how are you doing"
      ⟨"Hello there how are you doing", "", 0, [], "", "", ""⟩ (Except.error "x")
      (by decide) (by decide) (by decide) rfl rfl).mpr
    ⟨"hello", by decide, by decide⟩

/-- A prefix occurrence is in particular a substring occurrence. -/
theorem containsSub_of_startAt (sub l : List Char) (h : sub.isPrefixOf l = true) :
    containsSub sub l = true := by
  cases l with
  | nil =>
    cases sub with
    | nil => rfl
    | cons a as => simp [List.isPrefixOf] at h
  | cons c cs =>
    unfold containsSub
    rw [h]
    rfl

/-- Prefixes survive appending on the right. -/
theorem isPrefixOf_append (p : List Char) :
    ∀ x y : List Char, p.isPrefixOf x = true → p.isPrefixOf (x ++ y) = true := by
  induction p with
  | nil => intro x y _; simp [List.isPrefixOf]
  | cons a as ih =>
    intro x y h
    cases x with
    | nil => simp [List.isPrefixOf] at h
    | cons b bs => simp_all [List.isPrefixOf]

/-- C5 counterexample: with only a role configured (a boost-qualifying
condition per the claim), the rule-based fallback adds the `0.1` boost
but still returns `shouldRespond = false`: the role boost never sets the
verdict. -/
theorem rule_fallback_counterexample :
    (!(jsTrim (AnalysisContext.role ⟨"", "", 1600, [], "", "tutor", ""⟩)).data.isEmpty) = true ∧
      (TranscriptAnalyzer.ruleBasedAnalysis "the weather is quite nice today"
          ⟨"", "", 1600, [], "", "tutor", ""⟩).shouldRespond = false ∧
      (TranscriptAnalyzer.ruleBasedAnalysis "the weather is quite nice today"
          ⟨"", "", 1600, [], "", "tutor", ""⟩).reason = "Incomplete or unclear" :=
  ⟨by decide, rfl, rfl⟩

/-- C5 (amended): for every input reaching the rule-based fallback (no
question mark and no greeting start, as the cascade has already decided
those): a configured name appearing case-insensitively adds the `0.3`
boost with a reason mentioning direct addressing; a configured role adds
a `0.1` boost to the confidence only, without affecting the verdict;
a transcript ending in sentence-terminal punctuation or splitting into
more than `10` whitespace segments, together with silence above
`2000` ms, adds the `0.2` boost; the confidence is clamped to
`[0.1, 0.95]`; and `shouldRespond` is true exactly when direct
addressing or the completion condition fired, otherwise the reason is
`'Incomplete or unclear'`. -/
theorem rule_fallback_amended (t : String) (ctx : AnalysisContext)
    (hq : TranscriptAnalyzer.hasQuestionIn t = false)
    (hg : TranscriptAnalyzer.hasGreetingIn t = false) :
    (TranscriptAnalyzer.ruleBasedAnalysis t ctx).confidence
        = min 0.95 (max 0.1
            ((if (!ctx.name.data.isEmpty && !(jsTrim ctx.name).data.isEmpty &&
                  includesStr (lowerStr t) (jsTrim (lowerStr ctx.name))) then (0.3 : ℚ) else 0)
              + (if (!ctx.role.data.isEmpty && !(jsTrim ctx.role).data.isEmpty) then (0.1 : ℚ) else 0)
              + (if ((TranscriptAnalyzer.endsWithTerminal t || (jsSplitWs t).length > 10) &&
                  decide (ctx.silenceDuration > 2000)) then (0.2 : ℚ) else 0)))
    ∧ (TranscriptAnalyzer.ruleBasedAnalysis t ctx).shouldRespond
        = ((!ctx.name.data.isEmpty && !(jsTrim ctx.name).data.isEmpty &&
            includesStr (lowerStr t) (jsTrim (lowerStr ctx.name)))
          || ((TranscriptAnalyzer.endsWithTerminal t || (jsSplitWs t).length > 10) &&
            decide (ctx.silenceDuration > 2000)))
    ∧ ((!ctx.name.data.isEmpty && !(jsTrim ctx.name).data.isEmpty &&
          includesStr (lowerStr t) (jsTrim (lowerStr ctx.name))) = true →
        includesStr (TranscriptAnalyzer.ruleBasedAnalysis t ctx).reason "Directly addressed" = true)
    ∧ ((!ctx.name.data.isEmpty && !(jsTrim ctx.name).data.isEmpty &&
          includesStr (lowerStr t) (jsTrim (lowerStr ctx.name))) = false →
        ((TranscriptAnalyzer.endsWithTerminal t || (jsSplitWs t).length > 10) &&
          decide (ctx.silenceDuration > 2000)) = false →
        (TranscriptAnalyzer.ruleBasedAnalysis t ctx).reason = "Incomplete or unclear") := by
  unfold TranscriptAnalyzer.ruleBasedAnalysis
  rw [hq, hg]
  cases hAv : (!ctx.name.data.isEmpty && !(jsTrim ctx.name).data.isEmpty &&
      includesStr (lowerStr t) (jsTrim (lowerStr ctx.name))) <;>
    cases hRv : (!ctx.role.data.isEmpty && !(jsTrim ctx.role).data.isEmpty) <;>
      cases hCv : ((TranscriptAnalyzer.endsWithTerminal t || (jsSplitWs t).length > 10) &&
          decide (ctx.silenceDuration > 2000)) <;>
        simp only [hAv, hRv, hCv, Bool.false_eq_true, if_false, if_true, Bool.false_or,
          Bool.or_false, Bool.or_self, String.data_append] <;>
          refine ⟨by norm_num, by simp, ?_, by simp⟩ <;> intro hA2
  all_goals simp_all
  all_goals unfold includesStr
  all_goals simp only [String.data_append]
  all_goals exact containsSub_of_startAt _ _ (by
    first
      | exact isPrefixOf_append _ _ _ (by decide)
      | exact isPrefixOf_append _ _ _ (isPrefixOf_append _ _ _ (by decide)))

/-- Witness for C5 (amended): with name `Assistant` configured and the
transcript addressing it, the fallback's reason mentions direct
addressing. -/
theorem rule_fallback_amended_witness :
    includesStr (TranscriptAnalyzer.ruleBasedAnalysis "Assistant please write the report now."
        ⟨"", "", 2500, [], "Assistant", "tutor", ""⟩).reason "Directly addressed" = true :=
  (rule_fallback_amended "Assistant please write the report now."
      ⟨"", "", 2500, [], "Assistant", "tutor", ""⟩ (by decide) (by decide)).2.2.1 (by decide)

/-- `history.slice(-20)` applied only above the cap equals applying it
unconditionally. -/
theorem ite_sliceLast (l : List Message) :
    (if l.length > 20 then sliceLast 20 l else l) = sliceLast 20 l := by
  split
  · rfl
  · unfold sliceLast
    rename_i h
    have h0 : l.length - 20 = 0 := by omega
    rw [h0, List.drop_zero]

/-- C6: in every processing cycle, the conversation history is either
left unchanged or extended by exactly one user/assistant pair after a
successful generation; and whenever the analyzer or the generator fails
(after retries) in a cycle that actually runs, the history is unchanged
and an error event carrying the error is emitted.  `processCycle` is a
total function, so the cycle never throws. -/
theorem cycle_history_atomic
    (aF : String → AnalysisContext → Except String AnalysisResult)
    (gF : String → List Message → Except String String)
    (idCfg : MonIdentity) (st : MonState) (t : String) (sArg now : Nat)
    (hIdle : st.isProcessing = false) :
    ((TranscriptMonitor.processCycle aF gF idCfg st t sArg now).1.conversationHistory
        = st.conversationHistory
      ∨ ∃ a response, aF t (TranscriptMonitor.buildContext idCfg st t now) = Except.ok a
          ∧ a.shouldRespond = true
          ∧ gF t st.conversationHistory = Except.ok response
          ∧ (TranscriptMonitor.processCycle aF gF idCfg st t sArg now).1.conversationHistory
              = sliceLast 20 (st.conversationHistory ++
                  [ { role := Role.user, content := t, timestamp := now },
                    { role := Role.assistant, content := response, timestamp := now } ]))
    ∧ (∀ e, (jsTrim t).data.isEmpty = false →
        (aF t (TranscriptMonitor.buildContext idCfg st t now) = Except.error e
          ∨ ∃ a, aF t (TranscriptMonitor.buildContext idCfg st t now) = Except.ok a
              ∧ a.shouldRespond = true
              ∧ gF t st.conversationHistory = Except.error e) →
        (TranscriptMonitor.processCycle aF gF idCfg st t sArg now).1.conversationHistory
            = st.conversationHistory
          ∧ MonEvent.errorEvent e ∈ (TranscriptMonitor.processCycle aF gF idCfg st t sArg now).2) := by
  have hbc : TranscriptMonitor.buildContext idCfg { st with isProcessing := true } t now
      = TranscriptMonitor.buildContext idCfg st t now := rfl
  constructor
  · unfold TranscriptMonitor.processCycle
    dsimp only
    split
    · exact Or.inl rfl
    · split
      · exact Or.inl rfl
      · rw [hbc]
        split
        · exact Or.inl rfl
        · rename_i a hA
          split
          · split
            · exact Or.inl rfl
            · rename_i hResp resp hG
              refine Or.inr ⟨a, resp, hA, by assumption, hG, ?_⟩
              simp only [ite_sliceLast]
          · exact Or.inl rfl
  · intro e htrim hfail
    unfold TranscriptMonitor.processCycle
    dsimp only
    rw [hbc]
    rcases hfail with hA | ⟨a, hA, hResp, hG⟩
    · simp [htrim, hIdle, hA]
    · simp [htrim, hIdle, hA, hResp, hG]

/-- Witness for C6: a failing analyzer leaves the history empty and
emits the error event. -/
theorem cycle_history_atomic_witness :
    (TranscriptMonitor.processCycle (fun _ _ => Except.error "boom")
          (fun _ _ => Except.ok "resp") {} (initMonState 0) "hello world" 0 5).1.conversationHistory
        = (initMonState 0).conversationHistory
      ∧ MonEvent.errorEvent "boom" ∈ (TranscriptMonitor.processCycle (fun _ _ => Except.error "boom")
          (fun _ _ => Except.ok "resp") {} (initMonState 0) "hello world" 0 5).2 :=
  (cycle_history_atomic (fun _ _ => Except.error "boom") (fun _ _ => Except.ok "resp")
      {} (initMonState 0) "hello world" 0 5 rfl).2 "boom" (by decide) (Or.inl rfl)

/-- C8: the silence duration handed to the decision engine is the
current wall-clock time minus the last-change timestamp, computed when
the debounced cycle executes: (1) after a change observed at `tc`, a
cycle firing at `now` builds its context with silence `now - tc`;
(2) the cycle is entirely insensitive to the silence value passed at
scheduling time; (3) a probing analyzer observes exactly
`now - lastChangeTime` as the silence at fire time. -/
theorem silence_recomputed_at_fire :
    (∀ (idCfg : MonIdentity) (st : MonState) (t : String) (tc now : Nat),
      (TranscriptMonitor.buildContext idCfg
          (TranscriptMonitor.handleTranscriptChange st t tc).1 t now).silenceDuration
        = now - tc)
    ∧ (∀ (aF : String → AnalysisContext → Except String AnalysisResult)
        (gF : String → List Message → Except String String)
        (idCfg : MonIdentity) (st : MonState) (t : String) (s1 s2 now : Nat),
        TranscriptMonitor.processCycle aF gF idCfg st t s1 now
          = TranscriptMonitor.processCycle aF gF idCfg st t s2 now)
    ∧ (∀ (idCfg : MonIdentity) (st : MonState) (t : String) (sArg now : Nat),
        st.isProcessing = false → (jsTrim t).data.isEmpty = false →
        (TranscriptMonitor.processCycle (fun _ ctx => Except.error (toString ctx.silenceDuration))
            (fun _ _ => Except.ok "") idCfg st t sArg now).2
          = [MonEvent.errorEvent (toString (now - st.lastChangeTime))]) := by
  refine ⟨fun _ _ _ _ _ => rfl, fun _ _ _ _ _ _ _ _ => rfl, ?_⟩
  intro idCfg st t sArg now hIdle htrim
  unfold TranscriptMonitor.processCycle
  dsimp only
  simp [htrim, hIdle, TranscriptMonitor.buildContext]

/-- Witness for C8: a change at time `1000` followed by a fire at time
`2400` reports `1400` ms of silence to the analyzer. -/
theorem silence_recomputed_at_fire_witness :
    (TranscriptMonitor.processCycle (fun _ ctx => Except.error (toString ctx.silenceDuration))
        (fun _ _ => Except.ok "") {}
        (TranscriptMonitor.handleTranscriptChange (initMonState 0) "still thinking here" 1000).1
        "still thinking here" 0 2400).2
      = [MonEvent.errorEvent (toString 1400)] :=
  silence_recomputed_at_fire.2.2 {}
    (TranscriptMonitor.handleTranscriptChange (initMonState 0) "still thinking here" 1000).1
    "still thinking here" 0 2400 rfl (by decide)

/-- A processing cycle never touches the debounce handle nor the
last-seen transcript or timestamp. -/
theorem processCycle_pending (aF : String → AnalysisContext → Except String AnalysisResult)
    (gF : String → List Message → Except String String)
    (idCfg : MonIdentity) (st : MonState) (t : String) (s n : Nat) :
    (TranscriptMonitor.processCycle aF gF idCfg st t s n).1.pending = st.pending
    ∧ (TranscriptMonitor.processCycle aF gF idCfg st t s n).1.lastTranscript = st.lastTranscript := by
  unfold TranscriptMonitor.processCycle
  dsimp only
  repeat' split
  all_goals simp

/-- C9: in every reachable state of the monitor, the pending debounced
cycle's transcript coincides with the last-seen transcript, so the
context a firing cycle builds always has `previousTranscript` equal to
the transcript being analyzed. -/
theorem previous_transcript_current
    (aF : String → AnalysisContext → Except String AnalysisResult)
    (gF : String → List Message → Except String String)
    (idCfg : MonIdentity) (t0 : Nat) (ops : List TranscriptMonitor.MonOp)
    (t : String) (sArg now : Nat)
    (h : (TranscriptMonitor.monRun aF gF idCfg (initMonState t0) ops).pending = some (t, sArg)) :
    (TranscriptMonitor.buildContext idCfg
        (TranscriptMonitor.monRun aF gF idCfg (initMonState t0) ops) t now).previousTranscript
      = (TranscriptMonitor.buildContext idCfg
          (TranscriptMonitor.monRun aF gF idCfg (initMonState t0) ops) t now).transcript := by
  suffices hinv : ∀ (st : MonState),
      (∀ u s, st.pending = some (u, s) → st.lastTranscript = u) →
      ∀ u s, (TranscriptMonitor.monRun aF gF idCfg st ops).pending = some (u, s) →
        (TranscriptMonitor.monRun aF gF idCfg st ops).lastTranscript = u by
    exact hinv (initMonState t0) (by intro u s hh; simp [initMonState] at hh) t sArg h
  clear h
  induction ops with
  | nil => intro st hpre u s hp; exact hpre u s hp
  | cons op rest ih =>
    intro st hpre u s hp
    refine ih ((TranscriptMonitor.monStep aF gF idCfg st op).1) ?_ u s hp
    cases op with
    | observeChange t' n' =>
      intro u' s' hh
      simp [TranscriptMonitor.monStep, TranscriptMonitor.handleTranscriptChange] at hh ⊢
      exact hh.1
    | update t' n' =>
      intro u' s' hh
      simp [TranscriptMonitor.monStep, TranscriptMonitor.updateTranscript,
        TranscriptMonitor.handleTranscriptChange] at hh ⊢
      exact hh.1
    | fireDebounce n' =>
      intro u' s' hh
      simp only [TranscriptMonitor.monStep] at hh ⊢
      cases hpd : st.pending with
      | none =>
        rw [hpd] at hh
        exact hpre u' s' hh
      | some p =>
        obtain ⟨pt, ps⟩ := p
        rw [hpd] at hh
        have hh2 : (TranscriptMonitor.processCycle aF gF idCfg
            { st with pending := none } pt ps n').1.pending = some (u', s') := hh
        rw [(processCycle_pending aF gF idCfg { st with pending := none } pt ps n').1] at hh2
        simp at hh2
    | clearHist =>
      intro u' s' hh
      simp [TranscriptMonitor.monStep] at hh ⊢
      exact hpre u' s' hh

/-- Witness for C9: after observing a change, the pending transcript is
the last-seen one and the built context repeats it as
`previousTranscript`. -/
theorem previous_transcript_current_witness :
    (TranscriptMonitor.buildContext {}
        (TranscriptMonitor.monRun (fun _ _ => Except.error "e") (fun _ _ => Except.ok "r") {}
          (initMonState 0) [TranscriptMonitor.MonOp.observeChange "hello over there" 5])
        "hello over there" 900).previousTranscript
      = (TranscriptMonitor.buildContext {}
          (TranscriptMonitor.monRun (fun _ _ => Except.error "e") (fun _ _ => Except.ok "r") {}
            (initMonState 0) [TranscriptMonitor.MonOp.observeChange "hello over there" 5])
          "hello over there" 900).transcript :=
  previous_transcript_current (fun _ _ => Except.error "e") (fun _ _ => Except.ok "r") {} 0
    [TranscriptMonitor.MonOp.observeChange "hello over there" 5] "hello over there" 0 900 rfl

/-- C10: `updateTranscript` writes the new text under the fixed storage
key `'transcript'`; every other key keeps its value, the debounced cycle
is scheduled with the new transcript, and the change event is emitted. -/
theorem update_writes_fixed_key (st : MonState) (t : String) (now : Nat) (k : String)
    (h : k ≠ "transcript") :
    (TranscriptMonitor.updateTranscript st t now).1.store k = st.store k
    ∧ (TranscriptMonitor.updateTranscript st t now).1.store "transcript" = t
    ∧ (TranscriptMonitor.updateTranscript st t now).1.pending = some (t, 0)
    ∧ MonEvent.transcriptChanged t ∈ (TranscriptMonitor.updateTranscript st t now).2 := by
  refine ⟨?_, rfl, rfl, by
    simp [TranscriptMonitor.updateTranscript, TranscriptMonitor.handleTranscriptChange]⟩
  simp [TranscriptMonitor.updateTranscript, TranscriptMonitor.handleTranscriptChange, h]

/-- Witness for C10: after `start('notes')`-style use of another key,
`updateTranscript` leaves the value under `'notes'` unchanged while
writing `'transcript'` and scheduling processing. -/
theorem update_writes_fixed_key_witness :
    (TranscriptMonitor.updateTranscript (initMonState 0) "fresh words" 7).1.store "notes"
        = (initMonState 0).store "notes"
    ∧ (TranscriptMonitor.updateTranscript (initMonState 0) "fresh words" 7).1.store "transcript"
        = "fresh words"
    ∧ (TranscriptMonitor.updateTranscript (initMonState 0) "fresh words" 7).1.pending
        = some ("fresh words", 0)
    ∧ MonEvent.transcriptChanged "fresh words"
        ∈ (TranscriptMonitor.updateTranscript (initMonState 0) "fresh words" 7).2 :=
  update_writes_fixed_key (initMonState 0) "fresh words" 7 "notes" (by decide)

/-- `slice(-n)` is the identity below the cap. -/
theorem sliceLast_of_le {α : Type} {n : Nat} {l : List α} (h : l.length ≤ n) :
    sliceLast n l = l := by
  unfold sliceLast
  rw [Nat.sub_eq_zero_of_le h, List.drop_zero]

/-- `slice(-n)` through reversal: the last `n` elements are the reversed
first `n` elements of the reversed list. -/
theorem sliceLast_eq_rev {α : Type} (n : Nat) (l : List α) :
    sliceLast n l = (l.reverse.take n).reverse := by
  rcases le_or_lt n l.length with h | h
  · have hr : (l.drop (l.length - n)).reverse = l.reverse.take (l.length - (l.length - n)) :=
      List.reverse_drop
    have he : l.length - (l.length - n) = n := by omega
    rw [he] at hr
    unfold sliceLast
    rw [← hr, List.reverse_reverse]
  · have h0 : l.length - n = 0 := by omega
    unfold sliceLast
    rw [h0, List.drop_zero, List.take_of_length_le (by simp; omega), List.reverse_reverse]

/-- Truncating to the last `n` elements commutes with earlier
truncations: only the final window matters. -/
theorem sliceLast_append_left {α : Type} (n : Nat) (x y : List α) :
    sliceLast n (sliceLast n x ++ y) = sliceLast n (x ++ y) := by
  rw [sliceLast_eq_rev n x, sliceLast_eq_rev, sliceLast_eq_rev]
  rw [List.reverse_append, List.reverse_reverse, List.reverse_append]
  congr 1
  rw [List.take_append_eq_append_take, List.take_append_eq_append_take, List.take_take]
  congr 1
  rw [min_eq_left (Nat.sub_le _ _)]

/-- The uncapped pair sequence grows by two messages per successful
cycle. -/
theorem pairMessages_length (respFn : String → String) (inputs : List (String × Nat)) :
    (TranscriptMonitor.pairMessages respFn inputs).length = 2 * inputs.length := by
  induction inputs with
  | nil => rfl
  | cons p rest ih =>
    have hc : TranscriptMonitor.pairMessages respFn (p :: rest)
        = [ { role := Role.user, content := p.1, timestamp := p.2 },
            { role := Role.assistant, content := respFn p.1, timestamp := p.2 } ]
          ++ TranscriptMonitor.pairMessages respFn rest := by
      simp [TranscriptMonitor.pairMessages]
    rw [hc, List.length_append, ih, List.length_cons]
    simp only [List.length_cons, List.length_singleton, List.length_nil]
    omega

/-- A run of successful cycles keeps exactly the last twenty messages of
the full appended pair sequence. -/
theorem runCycles_history
    (aF : String → AnalysisContext → Except String AnalysisResult)
    (gF : String → List Message → Except String String)
    (respFn : String → String) (idCfg : MonIdentity)
    (hA : ∀ t ctx, ∃ a, aF t ctx = Except.ok a ∧ a.shouldRespond = true)
    (hG : ∀ t h, gF t h = Except.ok (respFn t)) :
    ∀ (inputs : List (String × Nat)) (st : MonState),
      st.isProcessing = false →
      st.conversationHistory.length ≤ 20 →
      (∀ p ∈ inputs, (jsTrim p.1).data.isEmpty = false) →
      (TranscriptMonitor.runCycles aF gF idCfg st inputs).conversationHistory
        = sliceLast 20 (st.conversationHistory ++ TranscriptMonitor.pairMessages respFn inputs) := by
  intro inputs
  induction inputs with
  | nil =>
    intro st hproc hlen hne
    simp only [TranscriptMonitor.runCycles, List.foldl_nil, TranscriptMonitor.pairMessages,
      List.map_nil, List.flatten_nil, List.append_nil]
    exact (sliceLast_of_le hlen).symm
  | cons p rest ih =>
    intro st hproc hlen hne
    obtain ⟨pt, pn⟩ := p
    obtain ⟨a, hA1, hResp⟩ :=
      hA pt (TranscriptMonitor.buildContext idCfg { st with isProcessing := true } pt pn)
    have htr : (jsTrim pt).data.isEmpty = false := hne (pt, pn) (by simp)
    have hcycle : (TranscriptMonitor.processCycle aF gF idCfg st pt 0 pn).1.conversationHistory
        = sliceLast 20 (st.conversationHistory ++
            [ { role := Role.user, content := pt, timestamp := pn },
              { role := Role.assistant, content := respFn pt, timestamp := pn } ])
      ∧ (TranscriptMonitor.processCycle aF gF idCfg st pt 0 pn).1.isProcessing = false := by
      unfold TranscriptMonitor.processCycle
      dsimp only
      rw [htr, hproc]
      simp only [Bool.false_eq_true, if_false]
      rw [hA1]
      dsimp only
      rw [hResp, hG]
      simp only [eq_self_iff_true, if_true]
      exact ⟨ite_sliceLast _, trivial⟩
    have hlen2 : (TranscriptMonitor.processCycle aF gF idCfg st pt 0 pn).1.conversationHistory.length
        ≤ 20 := by
      rw [hcycle.1]
      simp only [sliceLast, List.length_drop]
      omega
    have hrest := ih ((TranscriptMonitor.processCycle aF gF idCfg st pt 0 pn).1)
      hcycle.2 hlen2 (fun q hq => hne q (by simp [hq]))
    show (TranscriptMonitor.runCycles aF gF idCfg
        ((TranscriptMonitor.processCycle aF gF idCfg st pt 0 pn).1) rest).conversationHistory = _
    rw [hrest, hcycle.1, sliceLast_append_left, List.append_assoc]
    have hpm : TranscriptMonitor.pairMessages respFn ((pt, pn) :: rest)
        = [ { role := Role.user, content := pt, timestamp := pn },
            { role := Role.assistant, content := respFn pt, timestamp := pn } ]
          ++ TranscriptMonitor.pairMessages respFn rest := by
      simp [TranscriptMonitor.pairMessages]
    rw [hpm]

/-- C7: the conversation history is capped at 20 messages (the fixed
maximum in the source): every successful response cycle leaves at most
20 messages; a run of N successful cycles from an empty history retains
exactly the most recent messages of the appended pair sequence in their
original order; and once N×2 exceeds the cap the history holds exactly
20 entries. -/
theorem history_cap_twenty
    (aF : String → AnalysisContext → Except String AnalysisResult)
    (gF : String → List Message → Except String String)
    (respFn : String → String) (idCfg : MonIdentity)
    (hA : ∀ t ctx, ∃ a, aF t ctx = Except.ok a ∧ a.shouldRespond = true)
    (hG : ∀ t h, gF t h = Except.ok (respFn t))
    (inputs : List (String × Nat))
    (hne : ∀ p ∈ inputs, (jsTrim p.1).data.isEmpty = false) (t0 : Nat) :
    (∀ (st : MonState) (t : String) (sArg now : Nat), st.isProcessing = false →
      (jsTrim t).data.isEmpty = false →
      (TranscriptMonitor.processCycle aF gF idCfg st t sArg now).1.conversationHistory.length ≤ 20)
    ∧ (TranscriptMonitor.runCycles aF gF idCfg (initMonState t0) inputs).conversationHistory
        = sliceLast 20 (TranscriptMonitor.pairMessages respFn inputs)
    ∧ (20 < 2 * inputs.length →
        (TranscriptMonitor.runCycles aF gF idCfg (initMonState t0) inputs).conversationHistory.length
          = 20) := by
  have hmain := runCycles_history aF gF respFn idCfg hA hG inputs (initMonState t0)
    rfl (by simp [initMonState]) hne
  refine ⟨?_, ?_, ?_⟩
  · intro st t sArg now hproc htr
    obtain ⟨a, hA1, hResp⟩ :=
      hA t (TranscriptMonitor.buildContext idCfg { st with isProcessing := true } t now)
    have hone : (TranscriptMonitor.processCycle aF gF idCfg st t sArg now).1.conversationHistory
        = sliceLast 20 (st.conversationHistory ++
            [ { role := Role.user, content := t, timestamp := now },
              { role := Role.assistant, content := respFn t, timestamp := now } ]) := by
      unfold TranscriptMonitor.processCycle
      dsimp only
      rw [htr, hproc]
      simp only [Bool.false_eq_true, if_false]
      rw [hA1]
      dsimp only
      rw [hResp, hG]
      simp only [eq_self_iff_true, if_true]
      exact ite_sliceLast _
    rw [hone]
    simp only [sliceLast, List.length_drop]
    omega
  · simpa [initMonState] using hmain
  · intro hbig
    have h2 : (TranscriptMonitor.runCycles aF gF idCfg (initMonState t0) inputs).conversationHistory
        = sliceLast 20 (TranscriptMonitor.pairMessages respFn inputs) := by
      simpa [initMonState] using hmain
    rw [h2]
    simp only [sliceLast, List.length_drop, pairMessages_length]
    omega

/-- Witness for C7: eleven successful cycles (22 messages before
truncation) leave exactly 20 entries in the history. -/
theorem history_cap_twenty_witness :
    (TranscriptMonitor.runCycles (fun _ _ => Except.ok ⟨true, 0.8, "ok"⟩)
        (fun t _ => Except.ok ("Re " ++ t)) {} (initMonState 0)
        (List.replicate 11 ("let us keep talking", 3))).conversationHistory.length = 20 :=
  (history_cap_twenty (fun _ _ => Except.ok ⟨true, 0.8, "ok"⟩)
      (fun t _ => Except.ok ("Re " ++ t)) (fun t => "Re " ++ t) {}
      (fun _ _ => ⟨⟨true, 0.8, "ok"⟩, rfl, rfl⟩) (fun _ _ => rfl)
      (List.replicate 11 ("let us keep talking", 3)) (by decide) 0).2.2 (by decide)
